import Mathlib

/-!
Verification of the HogBall server-side authentication-attempt rate limiter
and account-lockout engine (spec.md §2–§8).  The repository's visible code
for this feature is its E2E test suite (tests/e2e/security/brute-force.spec.ts);
the core (Attempt Ledger, Lockout Policy, Rate Limiter Service) is modelled
here from the specification.
-/

namespace HogBall

/-- Modelled from the spec (§3): `operationType` is one of a fixed
enumerated set; attempts under different types never influence each
other's counters. -/
inductive OperationType where
  | sign_in
  | sign_up
  | password_reset
deriving DecidableEq, Repr

/-- Modelled from the spec (§3): `AttemptKey` — composite, unique
`(identity, operationType)`.  `identity` is a normalized string
(e.g. an email address). -/
structure AttemptKey where
  identity : String
  operationType : OperationType
deriving DecidableEq, Repr

/-- Modelled from the spec (§3): `AttemptRecord` — the mutable state for
one AttemptKey: `failureCount`, `firstFailureAt` (nullable),
`lockedUntil` (nullable), `lastAttemptAt`.  Timestamps are naturals
(milliseconds). -/
structure AttemptRecord where
  failureCount : Nat
  firstFailureAt : Option Nat
  lockedUntil : Option Nat
  lastAttemptAt : Option Nat
deriving DecidableEq, Repr

/-- Modelled from the spec (§4.1 `clear`): the zero state,
"as if never failed". -/
def zeroRecord : AttemptRecord :=
  { failureCount := 0, firstFailureAt := none, lockedUntil := none
    lastAttemptAt := none }

/-- Modelled from the spec (§3, §6): the Attempt Ledger's durable
server-side store, one record per AttemptKey, absent until lazily
created on the first failure. -/
abbrev Ledger := AttemptKey → Option AttemptRecord

/-- A ledger with no records: every key is fresh. -/
def emptyLedger : Ledger := fun _ => none

/-- Point update of the ledger at one key. -/
def Ledger.update (st : Ledger) (k : AttemptKey) (r : Option AttemptRecord) :
    Ledger :=
  fun j => if j = k then r else st j

/-- Modelled from the spec (§4.1): `get(key) -> AttemptRecord|absent`. -/
def Ledger.get (st : Ledger) (k : AttemptKey) : Option AttemptRecord :=
  st k

/-- Modelled from the spec (§3 lifecycle, §4.2 step 3): a record whose
lock has naturally expired (or whose count is zero) is treated as a
clean state; the stale lock is reconciled lazily on the next write. -/
def AttemptRecord.cleanAt (r : AttemptRecord) (now : Nat) : Bool :=
  r.failureCount == 0 ||
    (match r.lockedUntil with
     | some u => decide (u ≤ now)
     | none => false)

/-- Modelled from the spec (§4.1): `atomicIncrementFailure(key, now)`
atomically loads-or-creates the record, increments `failureCount`, sets
`lastAttemptAt = now`, and if this is the first failure since a clean
state, sets `firstFailureAt = now` (clearing any stale expired lock,
per the lazy reconciliation of §4.2 step 3).  Returns the fresh record
and the updated ledger. -/
def Ledger.atomicIncrementFailure (st : Ledger) (k : AttemptKey) (now : Nat) :
    AttemptRecord × Ledger :=
  let r :=
    match st k with
    | none =>
        { failureCount := 1, firstFailureAt := some now, lockedUntil := none
          lastAttemptAt := some now }
    | some r0 =>
        if r0.cleanAt now then
          { failureCount := 1, firstFailureAt := some now, lockedUntil := none
            lastAttemptAt := some now }
        else
          { r0 with failureCount := r0.failureCount + 1
                    lastAttemptAt := some now }
  (r, st.update k (some r))

/-- Modelled from the spec (§4.1): `clear(key)` — idempotent; resets the
record to the zero state.  Used on credential success. -/
def Ledger.clear (st : Ledger) (k : AttemptKey) : Ledger :=
  st.update k (some zeroRecord)

/-- Modelled from the spec (§4.1): `applyLock(key, until)` sets
`lockedUntil`; called only by the Policy-driven path inside the
Service on a record that exists. -/
def Ledger.applyLock (st : Ledger) (k : AttemptKey) (u : Nat) : Ledger :=
  match st k with
  | none => st
  | some r => st.update k (some { r with lockedUntil := some u })

/-- Modelled from the spec (§4.2): the policy configuration —
`maxAttempts` (default 5) and `lockoutDuration` (default 15 minutes). -/
structure Config where
  maxAttempts : Nat
  lockoutDuration : Nat
deriving DecidableEq, Repr

/-- Modelled from the spec (§4.2): the default configuration,
`maxAttempts = 5`, `lockoutDuration = 15` minutes (in milliseconds). -/
def defaultConfig : Config :=
  { maxAttempts := 5, lockoutDuration := 15 * 60 * 1000 }

/-- Modelled from the spec (§4.2, glossary): the outcome of a policy
evaluation — `Allowed` (with remaining-attempt count) or `Locked`
(with retry time). -/
inductive Verdict where
  | Allowed (remainingAttempts : Nat)
  | Locked (retryAfter : Nat)
deriving DecidableEq, Repr

/-- Modelled from the spec (§4.2): the Lockout Policy, a pure function of
`(record, now, config)`:
1. absent record or `failureCount == 0` ⇒ `Allowed{maxAttempts}`;
2. `lockedUntil` set and `now < lockedUntil` ⇒ `Locked{lockedUntil - now}`;
3. `lockedUntil` set and `now ≥ lockedUntil` ⇒ treat as step 1;
4. else ⇒ `Allowed{maxAttempts - failureCount}`. -/
def evaluatePolicy (record : Option AttemptRecord) (now : Nat) (cfg : Config) :
    Verdict :=
  match record with
  | none => .Allowed cfg.maxAttempts
  | some r =>
      if r.failureCount = 0 then .Allowed cfg.maxAttempts
      else
        match r.lockedUntil with
        | some u => if now < u then .Locked (u - now) else .Allowed cfg.maxAttempts
        | none => .Allowed (cfg.maxAttempts - r.failureCount)

/-- Modelled from the spec (§4.3): `checkAdmissible` — read-only; consults
`Ledger.get` and the Policy.  The ledger state is threaded through the
result so that absence of mutation is expressible: the state component
is returned untouched. -/
def checkAdmissibleSt (st : Ledger) (k : AttemptKey) (now : Nat)
    (cfg : Config) : Verdict × Ledger :=
  (evaluatePolicy (st.get k) now cfg, st)

/-- The verdict component of `checkAdmissibleSt`. -/
def checkAdmissible (st : Ledger) (k : AttemptKey) (now : Nat)
    (cfg : Config) : Verdict :=
  (checkAdmissibleSt st k now cfg).1

/-- Modelled from the spec (§4.3): `recordFailure` calls
`Ledger.atomicIncrementFailure`, and if the new `failureCount ≥
maxAttempts` and no lock is yet set, calls `Ledger.applyLock(key,
now + lockoutDuration)`.  Returns the post-update verdict together with
the updated ledger. -/
def recordFailure (st : Ledger) (k : AttemptKey) (now : Nat) (cfg : Config) :
    Verdict × Ledger :=
  let p := st.atomicIncrementFailure k now
  let st2 :=
    if cfg.maxAttempts ≤ p.1.failureCount ∧ p.1.lockedUntil = none then
      p.2.applyLock k (now + cfg.lockoutDuration)
    else p.2
  ((checkAdmissibleSt st2 k now cfg).1, st2)

/-- Modelled from the spec (§4.3): `recordSuccess` calls `Ledger.clear`. -/
def recordSuccess (st : Ledger) (k : AttemptKey) : Ledger :=
  st.clear k

/-- Folds a sequence of `recordFailure` calls (at the given timestamps)
on one key, keeping only the ledger state. -/
def failTimes (cfg : Config) (ts : List Nat) (st : Ledger) (k : AttemptKey) :
    Ledger :=
  ts.foldl (fun s t => (recordFailure s k t cfg).2) st

/-- The stored failure count for a key (0 when the record is absent). -/
def failureCountOf (st : Ledger) (k : AttemptKey) : Nat :=
  match st k with
  | none => 0
  | some r => r.failureCount

/-- The stored lock expiry for a key (none when absent or unlocked). -/
def lockedUntilOf (st : Ledger) (k : AttemptKey) : Option Nat :=
  match st k with
  | none => none
  | some r => r.lockedUntil

/-- Modelled from the spec (§1, §9 "Client-trusted state"): the state a
browser could present — local storage contents, session id, device id.
The core never accepts any of it as input. -/
structure ClientState where
  localStorage : List (String × String)
  sessionId : String
  deviceId : String
deriving DecidableEq, Repr

/-- Modelled from the spec (§1, §9): the endpoint-facing admissibility
check.  The client's state is in scope at the boundary but the core
consults only the server-side ledger. -/
def checkAdmissibleFromClient (_client : ClientState) (st : Ledger)
    (k : AttemptKey) (now : Nat) (cfg : Config) : Verdict :=
  checkAdmissible st k now cfg

/-- Modelled from the spec (§1, §9): the endpoint-facing failure
recording; the client's state is never consulted. -/
def recordFailureFromClient (_client : ClientState) (st : Ledger)
    (k : AttemptKey) (now : Nat) (cfg : Config) : Verdict × Ledger :=
  recordFailure st k now cfg

/-- Modelled from the spec (§1, §9): the endpoint-facing success
recording; the client's state is never consulted. -/
def recordSuccessFromClient (_client : ClientState) (st : Ledger)
    (k : AttemptKey) : Ledger :=
  recordSuccess st k

/-- Sample keys used in concrete witnesses (identities from the spec's
§8 scenarios). -/
def kA : AttemptKey := { identity := "a@x.com", operationType := .sign_in }

/-- A second sample key, same operation type, different identity. -/
def kB : AttemptKey := { identity := "b@x.com", operationType := .sign_in }

/-! ### Helper lemmas about the ledger -/

theorem update_self (st : Ledger) (k : AttemptKey) (r : Option AttemptRecord) :
    st.update k r k = r := by
  simp [Ledger.update]

theorem update_frame (st : Ledger) {j k : AttemptKey} (r : Option AttemptRecord)
    (h : j ≠ k) : st.update k r j = st j := by
  simp [Ledger.update, h]

/-- Invariant: the record at `k` is absent (with `m = 0`) or carries
failure count `m` with no lock set. -/
def countedNoLock (st : Ledger) (k : AttemptKey) (m : Nat) : Prop :=
  match st k with
  | none => m = 0
  | some r => r.failureCount = m ∧ r.lockedUntil = none

theorem countedNoLock_empty (k : AttemptKey) : countedNoLock emptyLedger k 0 :=
  rfl

theorem countedNoLock_fields {st : Ledger} {k : AttemptKey} {m : Nat}
    (h : countedNoLock st k m) :
    failureCountOf st k = m ∧ lockedUntilOf st k = none := by
  unfold countedNoLock at h
  unfold failureCountOf lockedUntilOf
  cases hst : st k with
  | none => rw [hst] at h; exact ⟨h.symm, rfl⟩
  | some r => rw [hst] at h; exact ⟨h.1, h.2⟩

theorem incr_below (st : Ledger) (k : AttemptKey) (m t : Nat)
    (h : countedNoLock st k m) :
    countedNoLock (st.atomicIncrementFailure k t).2 k (m + 1) := by
  unfold countedNoLock at h ⊢
  cases hst : st k with
  | none =>
      rw [hst] at h
      subst h
      simp [Ledger.atomicIncrementFailure, hst, update_self]
  | some r0 =>
      rw [hst] at h
      obtain ⟨hc, hl⟩ := h
      by_cases hm : m = 0
      · subst hm
        simp [Ledger.atomicIncrementFailure, hst, update_self,
              AttemptRecord.cleanAt, hc]
      · simp [Ledger.atomicIncrementFailure, hst, update_self,
              AttemptRecord.cleanAt, hc, hl, hm]

theorem recordFailure_below (st : Ledger) (k : AttemptKey) (m t : Nat)
    (cfg : Config) (h : countedNoLock st k m)
    (hlt : m + 1 < cfg.maxAttempts) :
    countedNoLock (recordFailure st k t cfg).2 k (m + 1) := by
  have hincr := incr_below st k m t h
  have hcount : (st.atomicIncrementFailure k t).1.failureCount = m + 1 := by
    unfold countedNoLock at h
    cases hst : st k with
    | none =>
        rw [hst] at h
        subst h
        simp [Ledger.atomicIncrementFailure, hst]
    | some r0 =>
        rw [hst] at h
        obtain ⟨hc, hl⟩ := h
        by_cases hm : m = 0
        · subst hm
          simp [Ledger.atomicIncrementFailure, hst, AttemptRecord.cleanAt, hc]
        · simp [Ledger.atomicIncrementFailure, hst, AttemptRecord.cleanAt,
                hc, hl, hm]
  have hno : ¬ (cfg.maxAttempts ≤ (st.atomicIncrementFailure k t).1.failureCount ∧
      (st.atomicIncrementFailure k t).1.lockedUntil = none) := by
    intro hcond
    rw [hcount] at hcond
    exact absurd hcond.1 (by omega)
  simpa [recordFailure, hno] using hincr

theorem failTimes_count (cfg : Config) (k : AttemptKey) :
    ∀ (ts : List Nat) (st : Ledger) (m : Nat), countedNoLock st k m →
      m + ts.length < cfg.maxAttempts →
      countedNoLock (failTimes cfg ts st k) k (m + ts.length)
  | [], st, m, h, _ => by simpa [failTimes] using h
  | t :: ts, st, m, h, hlt => by
      have hstep : countedNoLock (recordFailure st k t cfg).2 k (m + 1) :=
        recordFailure_below st k m t cfg h (by simp at hlt; omega)
      have htail :=
        failTimes_count cfg k ts (recordFailure st k t cfg).2 (m + 1) hstep
          (by simp at hlt; omega)
      have harith : m + (t :: ts).length = m + 1 + ts.length := by
        simp; omega
      rw [harith]
      simpa [failTimes] using htail

theorem checkAdmissible_counted (st : Ledger) (k : AttemptKey) (m now : Nat)
    (cfg : Config) (h : countedNoLock st k m) :
    checkAdmissible st k now cfg = Verdict.Allowed (cfg.maxAttempts - m) := by
  unfold countedNoLock at h
  cases hst : st k with
  | none =>
      rw [hst] at h
      subst h
      simp [checkAdmissible, checkAdmissibleSt, evaluatePolicy, Ledger.get, hst]
  | some r =>
      rw [hst] at h
      obtain ⟨hc, hl⟩ := h
      by_cases hm : m = 0
      · subst hm
        simp [checkAdmissible, checkAdmissibleSt, evaluatePolicy, Ledger.get,
              hst, hc]
      · simp [checkAdmissible, checkAdmissibleSt, evaluatePolicy, Ledger.get,
              hst, hc, hl, hm]

theorem recordFailure_locks (st : Ledger) (k : AttemptKey) (t : Nat)
    (cfg : Config) (m : Nat) (h : countedNoLock st k m)
    (hm : m + 1 = cfg.maxAttempts) (hD : 0 < cfg.lockoutDuration) :
    (recordFailure st k t cfg).1 = Verdict.Locked cfg.lockoutDuration ∧
    ∃ f, (recordFailure st k t cfg).2 k =
      some { failureCount := cfg.maxAttempts, firstFailureAt := f
             lockedUntil := some (t + cfg.lockoutDuration)
             lastAttemptAt := some t } := by
  have hlt : t < t + cfg.lockoutDuration := by omega
  unfold countedNoLock at h
  cases hst : st k with
  | none =>
      rw [hst] at h
      subst h
      refine ⟨?_, some t, ?_⟩ <;>
        simp [recordFailure, Ledger.atomicIncrementFailure, hst,
              Ledger.applyLock, Ledger.update, checkAdmissibleSt,
              evaluatePolicy, Ledger.get, ← hm, hlt]
  | some r0 =>
      rw [hst] at h
      obtain ⟨hc, hl⟩ := h
      by_cases hm0 : m = 0
      · subst hm0
        refine ⟨?_, some t, ?_⟩ <;>
          simp [recordFailure, Ledger.atomicIncrementFailure, hst,
                AttemptRecord.cleanAt, hc, Ledger.applyLock, Ledger.update,
                checkAdmissibleSt, evaluatePolicy, Ledger.get, ← hm, hlt]
      · refine ⟨?_, r0.firstFailureAt, ?_⟩ <;>
          simp [recordFailure, Ledger.atomicIncrementFailure, hst,
                AttemptRecord.cleanAt, hc, hl, hm0, Ledger.applyLock,
                Ledger.update, checkAdmissibleSt, evaluatePolicy, Ledger.get,
                ← hm, hlt]

theorem locked_verdict (st : Ledger) (k : AttemptKey) (r : AttemptRecord)
    (u now : Nat) (cfg : Config) (hst : st k = some r)
    (hc : r.failureCount ≠ 0) (hl : r.lockedUntil = some u) (hnow : now < u) :
    checkAdmissible st k now cfg = Verdict.Locked (u - now) ∧ 0 < u - now := by
  constructor
  · simp [checkAdmissible, checkAdmissibleSt, evaluatePolicy, Ledger.get,
          hst, hc, hl, hnow]
  · omega

theorem recordFailure_while_locked (st : Ledger) (k : AttemptKey)
    (r : AttemptRecord) (u now : Nat) (cfg : Config) (hst : st k = some r)
    (hc : r.failureCount ≠ 0) (hl : r.lockedUntil = some u) (hnow : now < u) :
    (recordFailure st k now cfg).1 = Verdict.Locked (u - now) ∧
    lockedUntilOf (recordFailure st k now cfg).2 k = some u := by
  have hclean : r.cleanAt now = false := by
    simp [AttemptRecord.cleanAt, hc, hl]
    omega
  constructor <;>
    simp [recordFailure, Ledger.atomicIncrementFailure, hst, hclean, hl,
          Ledger.update, checkAdmissibleSt, evaluatePolicy, Ledger.get,
          lockedUntilOf, hnow]

/-! ### Frame lemmas: operations on one key never touch another key -/

theorem incr_frame (st : Ledger) {j k : AttemptKey} (now : Nat) (h : j ≠ k) :
    (st.atomicIncrementFailure k now).2 j = st j := by
  simp [Ledger.atomicIncrementFailure, Ledger.update, h]

theorem applyLock_frame (st : Ledger) {j k : AttemptKey} (u : Nat)
    (h : j ≠ k) : st.applyLock k u j = st j := by
  unfold Ledger.applyLock
  cases hst : st k <;> simp [Ledger.update, h]

theorem recordFailure_frame (st : Ledger) {j k : AttemptKey} (now : Nat)
    (cfg : Config) (h : j ≠ k) : (recordFailure st k now cfg).2 j = st j := by
  unfold recordFailure
  dsimp only
  by_cases hcond : cfg.maxAttempts ≤ (st.atomicIncrementFailure k now).1.failureCount ∧
      (st.atomicIncrementFailure k now).1.lockedUntil = none
  · rw [if_pos hcond, applyLock_frame _ _ h, incr_frame _ _ h]
  · rw [if_neg hcond, incr_frame _ _ h]

theorem recordSuccess_frame (st : Ledger) {j k : AttemptKey} (h : j ≠ k) :
    recordSuccess st k j = st j := by
  simp [recordSuccess, Ledger.clear, Ledger.update, h]

/-- One call into the Rate Limiter Service's mutating surface for a key:
a failure at a timestamp, a success, or a policy-driven lock
application. -/
inductive ServiceOp where
  | fail (now : Nat)
  | success
  | lock (u : Nat)
deriving DecidableEq, Repr

/-- Applies one service operation to the given key. -/
def applyOp (cfg : Config) (st : Ledger) (k : AttemptKey) : ServiceOp → Ledger
  | .fail now => (recordFailure st k now cfg).2
  | .success => recordSuccess st k
  | .lock u => st.applyLock k u

/-- Applies a sequence of service operations, all on one key. -/
def applyOps (cfg : Config) (ops : List ServiceOp) (st : Ledger)
    (k : AttemptKey) : Ledger :=
  ops.foldl (fun s o => applyOp cfg s k o) st

theorem applyOp_frame (cfg : Config) (st : Ledger) {j k : AttemptKey}
    (o : ServiceOp) (h : j ≠ k) : applyOp cfg st k o j = st j := by
  cases o with
  | fail now => exact recordFailure_frame st now cfg h
  | success => exact recordSuccess_frame st h
  | lock u => exact applyLock_frame st u h

theorem applyOps_frame (cfg : Config) {j k : AttemptKey} (h : j ≠ k) :
    ∀ (ops : List ServiceOp) (st : Ledger), applyOps cfg ops st k j = st j
  | [], _ => rfl
  | o :: ops, st => by
      have htail := applyOps_frame cfg h ops (applyOp cfg st k o)
      have hhead := applyOp_frame cfg st o h
      calc applyOps cfg (o :: ops) st k j
          = applyOps cfg ops (applyOp cfg st k o) k j := rfl
        _ = applyOp cfg st k o j := htail
        _ = st j := hhead

/-! ### Serialized increments for the concurrency contract -/

/-- A serialization of a set of `atomicIncrementFailure` calls on one
key: the calls applied one after another in some order, each one an
atomic unit (spec §4.1, §5). -/
def incrTimes (ts : List Nat) (st : Ledger) (k : AttemptKey) : Ledger :=
  ts.foldl (fun s t => (s.atomicIncrementFailure k t).2) st

theorem incrTimes_count (k : AttemptKey) :
    ∀ (ts : List Nat) (st : Ledger) (m : Nat), countedNoLock st k m →
      countedNoLock (incrTimes ts st k) k (m + ts.length)
  | [], st, m, h => by simpa [incrTimes] using h
  | t :: ts, st, m, h => by
      have hstep := incr_below st k m t h
      have htail :=
        incrTimes_count k ts (st.atomicIncrementFailure k t).2 (m + 1) hstep
      have harith : m + (t :: ts).length = m + 1 + ts.length := by
        simp; omega
      rw [harith]
      simpa [incrTimes] using htail

/-! ### The fallible ledger and service (spec §4.1, §4.3, §7) -/

/-- Modelled from the spec (§7): the Ledger cannot complete a read or
write (network/storage fault). -/
inductive StorageError where
  | StorageUnavailable
deriving DecidableEq, Repr

/-- Modelled from the spec (§7): the Service-level error wrapping a
`StorageUnavailable`, returned to the caller with no partial verdict. -/
inductive LimiterError where
  | RateLimiterUnavailable
deriving DecidableEq, Repr

/-- Modelled from the spec (§4.1): `get` fails with `StorageUnavailable`
when the backing store cannot be reached (modelled by the `avail`
flag); it never partially returns a record. -/
def LedgerE.get (avail : Bool) (st : Ledger) (k : AttemptKey) :
    Except StorageError (Option AttemptRecord) :=
  if avail then .ok (st.get k) else .error .StorageUnavailable

/-- Modelled from the spec (§4.1, §7): the fallible form of
`atomicIncrementFailure`. -/
def LedgerE.atomicIncrementFailure (avail : Bool) (st : Ledger)
    (k : AttemptKey) (now : Nat) :
    Except StorageError (AttemptRecord × Ledger) :=
  if avail then .ok (st.atomicIncrementFailure k now)
  else .error .StorageUnavailable

/-- Modelled from the spec (§4.1, §7): the fallible form of `applyLock`. -/
def LedgerE.applyLock (avail : Bool) (st : Ledger) (k : AttemptKey)
    (u : Nat) : Except StorageError Ledger :=
  if avail then .ok (st.applyLock k u) else .error .StorageUnavailable

/-- Modelled from the spec (§4.3, §7): `checkAdmissible` over the
fallible ledger; any `StorageUnavailable` propagates as
`RateLimiterUnavailable`. -/
def checkAdmissibleE (avail : Bool) (st : Ledger) (k : AttemptKey)
    (now : Nat) (cfg : Config) : Except LimiterError Verdict :=
  match LedgerE.get avail st k with
  | .error .StorageUnavailable => .error .RateLimiterUnavailable
  | .ok record => .ok (evaluatePolicy record now cfg)

/-- Modelled from the spec (§4.3, §7): `recordFailure` over the fallible
ledger; any `StorageUnavailable` from the increment or the lock write
propagates as `RateLimiterUnavailable` with no partial verdict. -/
def recordFailureE (avail : Bool) (st : Ledger) (k : AttemptKey)
    (now : Nat) (cfg : Config) : Except LimiterError (Verdict × Ledger) :=
  match LedgerE.atomicIncrementFailure avail st k now with
  | .error .StorageUnavailable => .error .RateLimiterUnavailable
  | .ok p =>
      if cfg.maxAttempts ≤ p.1.failureCount ∧ p.1.lockedUntil = none then
        match LedgerE.applyLock avail p.2 k (now + cfg.lockoutDuration) with
        | .error .StorageUnavailable => .error .RateLimiterUnavailable
        | .ok st2 => .ok ((checkAdmissibleSt st2 k now cfg).1, st2)
      else .ok ((checkAdmissibleSt p.2 k now cfg).1, p.2)

theorem checkAdmissibleE_avail (st : Ledger) (k : AttemptKey) (now : Nat)
    (cfg : Config) :
    checkAdmissibleE true st k now cfg
      = Except.ok (checkAdmissible st k now cfg) := by
  simp [checkAdmissibleE, LedgerE.get, checkAdmissible, checkAdmissibleSt]

theorem recordFailureE_avail (st : Ledger) (k : AttemptKey) (now : Nat)
    (cfg : Config) :
    recordFailureE true st k now cfg
      = Except.ok (recordFailure st k now cfg) := by
  by_cases hcond : cfg.maxAttempts ≤ (st.atomicIncrementFailure k now).1.failureCount ∧
      (st.atomicIncrementFailure k now).1.lockedUntil = none
  · simp [recordFailureE, recordFailure, LedgerE.atomicIncrementFailure,
          LedgerE.applyLock, hcond.1, hcond.2]
  · simp [recordFailureE, recordFailure, LedgerE.atomicIncrementFailure,
          LedgerE.applyLock, hcond]

/-- A sample record of a locked key, used in concrete witnesses:
5 failures, locked until time 10. -/
def lockedSampleRecord : AttemptRecord :=
  { failureCount := 5, firstFailureAt := some 0, lockedUntil := some 10
    lastAttemptAt := some 4 }

/-- A sample ledger holding `lockedSampleRecord` at `kA`. -/
def lockedSampleLedger : Ledger :=
  Ledger.update emptyLedger kA (some lockedSampleRecord)

/-! ### The claims -/

/-- Claim C2: the verdict for an (identity, operationType) pair is a
function of server-side ledger state only and is independent of any
client-side state: two runs that differ only in client session, device,
or browser storage get identical results from the admissibility check,
the failure recording and the success recording, so a lockout in effect
is reported as `Locked` to every client. -/
theorem claim_C2 (c1 c2 : ClientState) (st : Ledger) (k : AttemptKey)
    (now : Nat) (cfg : Config) :
    checkAdmissibleFromClient c1 st k now cfg
        = checkAdmissibleFromClient c2 st k now cfg ∧
    recordFailureFromClient c1 st k now cfg
        = recordFailureFromClient c2 st k now cfg ∧
    recordSuccessFromClient c1 st k = recordSuccessFromClient c2 st k :=
  ⟨rfl, rfl, rfl⟩

/-- Claim C3: for every sequence of at most 4 `recordFailure` calls on a
fresh AttemptKey, `checkAdmissible` returns `Allowed` with
`remainingAttempts = maxAttempts - failureCount`, and the stored failure
count equals the number of failures recorded. -/
theorem claim_C3 (ts : List Nat) (k : AttemptKey) (now : Nat)
    (hlen : ts.length ≤ 4) :
    checkAdmissible (failTimes defaultConfig ts emptyLedger k) k now
        defaultConfig
      = Verdict.Allowed (defaultConfig.maxAttempts -
          failureCountOf (failTimes defaultConfig ts emptyLedger k) k) ∧
    failureCountOf (failTimes defaultConfig ts emptyLedger k) k
      = ts.length := by
  have hcounted : countedNoLock (failTimes defaultConfig ts emptyLedger k) k
      (0 + ts.length) :=
    failTimes_count defaultConfig k ts emptyLedger 0 (countedNoLock_empty k)
      (by simp [defaultConfig]; omega)
  rw [Nat.zero_add] at hcounted
  have hf := countedNoLock_fields hcounted
  refine ⟨?_, hf.1⟩
  rw [hf.1]
  exact checkAdmissible_counted _ k ts.length now defaultConfig hcounted

/-- Witness for C3: three failed attempts on a fresh key leave the
verdict `Allowed` with `5 - 3` remaining. -/
theorem claim_C3_witness :
    ([2, 4, 6] : List Nat).length ≤ 4 ∧
    (checkAdmissible (failTimes defaultConfig [2, 4, 6] emptyLedger kA) kA
        100 defaultConfig
      = Verdict.Allowed (defaultConfig.maxAttempts -
          failureCountOf (failTimes defaultConfig [2, 4, 6] emptyLedger kA)
            kA) ∧
    failureCountOf (failTimes defaultConfig [2, 4, 6] emptyLedger kA) kA
      = ([2, 4, 6] : List Nat).length) :=
  ⟨by decide, claim_C3 [2, 4, 6] kA 100 (by decide)⟩

/-- Claim C5: `recordSuccess` always leaves the key's record in the zero
state regardless of prior state; it is idempotent (a no-op on an
already-clear key); and after 3 failures then a success, a 4th failure
yields `remainingAttempts = 4`, not 1 — both as the returned verdict
and on the next read. -/
theorem claim_C5 (st : Ledger) (k : AttemptKey) (a b c t now : Nat) :
    (recordSuccess st k) k = some zeroRecord ∧
    (∀ j, recordSuccess (recordSuccess st k) k j = recordSuccess st k j) ∧
    (recordFailure
        (recordSuccess (failTimes defaultConfig [a, b, c] emptyLedger k) k)
        k t defaultConfig).1 = Verdict.Allowed 4 ∧
    checkAdmissible
        (recordFailure
          (recordSuccess (failTimes defaultConfig [a, b, c] emptyLedger k) k)
          k t defaultConfig).2 k now defaultConfig = Verdict.Allowed 4 := by
  refine ⟨?_, ?_, ?_, ?_⟩
  · simp [recordSuccess, Ledger.clear, Ledger.update]
  · intro j
    by_cases hj : j = k <;>
      simp [recordSuccess, Ledger.clear, Ledger.update, hj]
  · simp [recordFailure, Ledger.atomicIncrementFailure, recordSuccess,
          Ledger.clear, Ledger.update, AttemptRecord.cleanAt, zeroRecord,
          checkAdmissibleSt, evaluatePolicy, Ledger.get, defaultConfig]
  · simp [checkAdmissible, recordFailure, Ledger.atomicIncrementFailure,
          recordSuccess, Ledger.clear, Ledger.update, AttemptRecord.cleanAt,
          zeroRecord, checkAdmissibleSt, evaluatePolicy, Ledger.get,
          defaultConfig]

/-- Claim C9: `checkAdmissible` is read-only: for every ledger state,
key, time and configuration, the ledger that comes out of the check is
exactly the ledger that went in — every AttemptRecord of every key is
untouched. -/
theorem claim_C9 (st : Ledger) (k : AttemptKey) (now : Nat) (cfg : Config) :
    (checkAdmissibleSt st k now cfg).2 = st ∧
    (∀ j, (checkAdmissibleSt st k now cfg).2 j = st j) :=
  ⟨rfl, fun _ => rfl⟩

/-- Claim C1: for a fresh AttemptKey with `maxAttempts = 5`, each of the
first 5 `recordFailure` calls is admitted (before each of attempts 1–5
the verdict is `Allowed`); the 5th failure itself triggers the lock and
`recordFailure` returns `Locked` on that same call; and the 6th attempt
— and every check while `now < lockedUntil` — yields a `Locked` verdict
with a strictly positive `retryAfter`. -/
theorem claim_C1 (k : AttemptKey) (ts : List Nat) (t5 t6 : Nat)
    (hlen : ts.length = 4) (h6 : t6 < t5 + defaultConfig.lockoutDuration) :
    (∀ i, i ≤ 4 → ∀ now,
        checkAdmissible (failTimes defaultConfig (ts.take i) emptyLedger k) k
            now defaultConfig
          = Verdict.Allowed (5 - i)) ∧
    (recordFailure (failTimes defaultConfig ts emptyLedger k) k t5
        defaultConfig).1 = Verdict.Locked defaultConfig.lockoutDuration ∧
    0 < defaultConfig.lockoutDuration ∧
    (∀ now, now < t5 + defaultConfig.lockoutDuration →
        checkAdmissible
            (recordFailure (failTimes defaultConfig ts emptyLedger k) k t5
              defaultConfig).2 k now defaultConfig
          = Verdict.Locked (t5 + defaultConfig.lockoutDuration - now) ∧
        0 < t5 + defaultConfig.lockoutDuration - now) ∧
    (recordFailure
        (recordFailure (failTimes defaultConfig ts emptyLedger k) k t5
          defaultConfig).2 k t6 defaultConfig).1
      = Verdict.Locked (t5 + defaultConfig.lockoutDuration - t6) := by
  have hDpos : 0 < defaultConfig.lockoutDuration := by decide
  have hcount4 : countedNoLock (failTimes defaultConfig ts emptyLedger k) k
      4 := by
    have h :=
      failTimes_count defaultConfig k ts emptyLedger 0 (countedNoLock_empty k)
        (by simp [defaultConfig, hlen])
    rw [hlen] at h
    simpa using h
  obtain ⟨hverd, f, hstate⟩ :=
    recordFailure_locks _ k t5 defaultConfig 4 hcount4
      (by simp [defaultConfig]) hDpos
  refine ⟨?_, hverd, hDpos, ?_, ?_⟩
  · intro i hi now
    have htake : (ts.take i).length = i := by
      rw [List.length_take, hlen]
      omega
    have hci : countedNoLock
        (failTimes defaultConfig (ts.take i) emptyLedger k) k i := by
      have h := failTimes_count defaultConfig k (ts.take i) emptyLedger 0
        (countedNoLock_empty k) (by rw [htake]; simp [defaultConfig]; omega)
      rw [htake] at h
      simpa using h
    exact checkAdmissible_counted _ k i now defaultConfig hci
  · intro now hnow
    exact locked_verdict _ k _ (t5 + defaultConfig.lockoutDuration) now
      defaultConfig hstate (by simp [defaultConfig]) rfl hnow
  · exact (recordFailure_while_locked _ k _
      (t5 + defaultConfig.lockoutDuration) t6 defaultConfig hstate
      (by simp [defaultConfig]) rfl h6).1

/-- Witness for C1: failures at times 1–4, the 5th at time 5 returning
`Locked` with the full 15-minute `retryAfter`, the 6th at time 6. -/
theorem claim_C1_witness :
    ([1, 2, 3, 4] : List Nat).length = 4 ∧
    (6 : Nat) < 5 + defaultConfig.lockoutDuration ∧
    (recordFailure (failTimes defaultConfig [1, 2, 3, 4] emptyLedger kA) kA
        5 defaultConfig).1 = Verdict.Locked defaultConfig.lockoutDuration ∧
    (recordFailure
        (recordFailure (failTimes defaultConfig [1, 2, 3, 4] emptyLedger kA)
          kA 5 defaultConfig).2 kA 6 defaultConfig).1
      = Verdict.Locked (5 + defaultConfig.lockoutDuration - 6) :=
  ⟨rfl, by decide,
    (claim_C1 kA [1, 2, 3, 4] 5 6 rfl (by decide)).2.1,
    (claim_C1 kA [1, 2, 3, 4] 5 6 rfl (by decide)).2.2.2.2⟩

/-- Claim C4: operations on one AttemptKey never change the record or
the verdict of any other AttemptKey: for keys differing in identity or
operation type, any sequence of `recordFailure` / `recordSuccess` /
lock applications on the first key leaves the second key's record
unchanged and its `checkAdmissible` verdict unaffected. -/
theorem claim_C4 (cfg : Config) (ops : List ServiceOp) (st : Ledger)
    (k1 k2 : AttemptKey) (now : Nat) (h : k1 ≠ k2) :
    applyOps cfg ops st k1 k2 = st k2 ∧
    checkAdmissible (applyOps cfg ops st k1) k2 now cfg
      = checkAdmissible st k2 now cfg := by
  have hframe := applyOps_frame cfg (Ne.symm h) ops st
  refine ⟨hframe, ?_⟩
  simp [checkAdmissible, checkAdmissibleSt, Ledger.get, hframe]

/-- Witness for C4: locking out `a@x.com` (failures, a success, a lock)
leaves `b@x.com` absent and still `Allowed`. -/
theorem claim_C4_witness :
    kA ≠ kB ∧
    (applyOps defaultConfig
        [ServiceOp.fail 1, ServiceOp.fail 2, ServiceOp.success,
          ServiceOp.lock 99] emptyLedger kA kB
      = emptyLedger kB ∧
    checkAdmissible
        (applyOps defaultConfig
          [ServiceOp.fail 1, ServiceOp.fail 2, ServiceOp.success,
            ServiceOp.lock 99] emptyLedger kA) kB 7 defaultConfig
      = checkAdmissible emptyLedger kB 7 defaultConfig) :=
  ⟨by decide,
    claim_C4 defaultConfig
      [ServiceOp.fail 1, ServiceOp.fail 2, ServiceOp.success,
        ServiceOp.lock 99] emptyLedger kA kB 7 (by decide)⟩

/-- Claim C6: for every record with `lockedUntil` set and
`now ≥ lockedUntil`, the policy evaluates as if the record were clear —
`checkAdmissible` returns `Allowed` with no manual reset, agreeing with
the verdict on a fresh key — and the expiry evaluation never mutates
the stored record. -/
theorem claim_C6 (st : Ledger) (k : AttemptKey) (r : AttemptRecord)
    (u now : Nat) (cfg : Config) (hst : st k = some r)
    (hl : r.lockedUntil = some u) (hexp : u ≤ now) :
    checkAdmissibleSt st k now cfg = (Verdict.Allowed cfg.maxAttempts, st) ∧
    checkAdmissible st k now cfg = checkAdmissible emptyLedger k now cfg := by
  have hnl : ¬ now < u := by omega
  constructor
  · by_cases hc : r.failureCount = 0 <;>
      simp [checkAdmissibleSt, evaluatePolicy, Ledger.get, hst, hl, hc, hnl]
  · by_cases hc : r.failureCount = 0 <;>
      simp [checkAdmissible, checkAdmissibleSt, evaluatePolicy, Ledger.get,
            hst, hl, hc, hnl, emptyLedger]

/-- Witness for C6: a record locked until time 10, read at time 20, is
`Allowed` again and the stored (stale) record is untouched. -/
theorem claim_C6_witness :
    lockedSampleLedger kA = some lockedSampleRecord ∧
    lockedSampleRecord.lockedUntil = some 10 ∧
    (10 : Nat) ≤ 20 ∧
    (checkAdmissibleSt lockedSampleLedger kA 20 defaultConfig
        = (Verdict.Allowed defaultConfig.maxAttempts, lockedSampleLedger) ∧
    checkAdmissible lockedSampleLedger kA 20 defaultConfig
        = checkAdmissible emptyLedger kA 20 defaultConfig) :=
  ⟨by decide, rfl, by decide,
    claim_C6 lockedSampleLedger kA lockedSampleRecord 10 20 defaultConfig
      (by decide) rfl (by decide)⟩

/-- Claim C7: for every AttemptKey, serialized `atomicIncrementFailure`
calls lose no updates: after any sequence of such calls on a fresh key
the final `failureCount` equals the number of calls, no lock having
been introduced by the increments themselves; and any reordering
(any serialization of the same concurrent calls) yields the same final
count. -/
theorem claim_C7 (k : AttemptKey) (ts ts' : List Nat) (hp : ts.Perm ts') :
    failureCountOf (incrTimes ts emptyLedger k) k = ts.length ∧
    lockedUntilOf (incrTimes ts emptyLedger k) k = none ∧
    failureCountOf (incrTimes ts' emptyLedger k) k
      = failureCountOf (incrTimes ts emptyLedger k) k := by
  have h1 := countedNoLock_fields
    (by simpa using incrTimes_count k ts emptyLedger 0 (countedNoLock_empty k))
  have h2 := countedNoLock_fields
    (by simpa using incrTimes_count k ts' emptyLedger 0 (countedNoLock_empty k))
  exact ⟨h1.1, h1.2, by rw [h1.1, h2.1, hp.length_eq]⟩

/-- Witness for C7: three increments in two different serialization
orders both leave a count of exactly 3. -/
theorem claim_C7_witness :
    ([1, 2, 3] : List Nat).Perm [3, 1, 2] ∧
    (failureCountOf (incrTimes [1, 2, 3] emptyLedger kA) kA
        = ([1, 2, 3] : List Nat).length ∧
    lockedUntilOf (incrTimes [1, 2, 3] emptyLedger kA) kA = none ∧
    failureCountOf (incrTimes [3, 1, 2] emptyLedger kA) kA
        = failureCountOf (incrTimes [1, 2, 3] emptyLedger kA) kA) :=
  ⟨by decide, claim_C7 kA [1, 2, 3] [3, 1, 2] (by decide)⟩

/-- Claim C8: once a key is locked, `lockedUntil` never changes until
the lock is cleared: for every record with `lockedUntil` set (and a
nonzero count, per the §3 invariant) and `now < lockedUntil`, a further
`recordFailure` leaves `lockedUntil` unchanged — the window is fixed,
never extended by attempts made while locked. -/
theorem claim_C8 (st : Ledger) (k : AttemptKey) (r : AttemptRecord)
    (u now : Nat) (cfg : Config) (hst : st k = some r)
    (hc : r.failureCount ≠ 0) (hl : r.lockedUntil = some u)
    (hnow : now < u) :
    lockedUntilOf ((recordFailure st k now cfg).2) k = some u :=
  (recordFailure_while_locked st k r u now cfg hst hc hl hnow).2

/-- Witness for C8: a failure at time 3 against a key locked until 10
leaves `lockedUntil` at 10. -/
theorem claim_C8_witness :
    lockedSampleLedger kA = some lockedSampleRecord ∧
    lockedSampleRecord.failureCount ≠ 0 ∧
    lockedSampleRecord.lockedUntil = some 10 ∧
    (3 : Nat) < 10 ∧
    lockedUntilOf ((recordFailure lockedSampleLedger kA 3 defaultConfig).2)
        kA = some 10 :=
  ⟨by decide, by decide, rfl, by decide,
    claim_C8 lockedSampleLedger kA lockedSampleRecord 10 3 defaultConfig
      (by decide) (by decide) rfl (by decide)⟩

/-- Claim C10: every Ledger `StorageUnavailable` failure propagates to
the caller as `RateLimiterUnavailable` with no partial verdict, and the
service never converts a storage error into an `Allowed` verdict: a
call returns a verdict only when the ledger operations succeeded and
the verdict is exactly the policy's computation on the real state. -/
theorem claim_C10 (st : Ledger) (k : AttemptKey) (now : Nat) (cfg : Config)
    (avail : Bool) :
    checkAdmissibleE false st k now cfg
        = Except.error LimiterError.RateLimiterUnavailable ∧
    recordFailureE false st k now cfg
        = Except.error LimiterError.RateLimiterUnavailable ∧
    (∀ v, checkAdmissibleE avail st k now cfg = Except.ok v →
        avail = true ∧ v = checkAdmissible st k now cfg) ∧
    (∀ q, recordFailureE avail st k now cfg = Except.ok q →
        avail = true ∧ q = recordFailure st k now cfg) := by
  refine ⟨?_, ?_, ?_, ?_⟩
  · simp [checkAdmissibleE, LedgerE.get]
  · simp [recordFailureE, LedgerE.atomicIncrementFailure]
  · intro v hv
    cases avail with
    | false => simp [checkAdmissibleE, LedgerE.get] at hv
    | true =>
        rw [checkAdmissibleE_avail] at hv
        injection hv with h
        exact ⟨rfl, h.symm⟩
  · intro q hq
    cases avail with
    | false => simp [recordFailureE, LedgerE.atomicIncrementFailure] at hq
    | true =>
        rw [recordFailureE_avail] at hq
        injection hq with h
        exact ⟨rfl, h.symm⟩

/-- Witness for C10: with storage available, the check on a fresh key
returns the pure policy verdict `Allowed 5`. -/
theorem claim_C10_witness :
    checkAdmissibleE true emptyLedger kA 0 defaultConfig
        = Except.ok (Verdict.Allowed 5) ∧
    (true = true ∧
      Verdict.Allowed 5 = checkAdmissible emptyLedger kA 0 defaultConfig) :=
  ⟨rfl,
    (claim_C10 emptyLedger kA 0 defaultConfig true).2.2.1
      (Verdict.Allowed 5) rfl⟩

end HogBall
